import Mathlib

/-!
# ghq `getter.go`: admission registry and acquisition orchestration

A shallow embedding of `src/getter.go`.

* The package-level `seen` map and `getRepoLock` become a pure check-and-mark
  step on an explicit registry value (the mutex makes that step atomic, so a
  run of the program is a sequence of such steps).
* `getter.get` and `getter.getRemoteRepository` become functions from the
  collaborator answers of one call and the registry to the returned error,
  the list of observable events and the registry afterwards.
* Go strings are Lean strings; `len` is the length in bytes.
-/

namespace Ghq

/-! ## Go strings -/

/-- Go `len(s)`: the number of bytes of `s`. -/
def len (s : String) : Nat := s.utf8ByteSize

/-- Go `strings.HasPrefix(s, pre)`. -/
def HasPrefix (s pre : String) : Bool := pre.data.isPrefixOf s.data

/-- Go `strings.TrimPrefix(s, pre)`: `s[len(pre):]` when `pre` is a prefix, else `s`. -/
def TrimPrefix (s pre : String) : String :=
  if HasPrefix s pre then ⟨s.data.drop pre.data.length⟩ else s

/-- Go `strings.HasSuffix(s, suf)`. -/
def HasSuffix (s suf : String) : Bool := suf.data.isSuffixOf s.data

/-- Go `strings.TrimSuffix(s, suf)`: `s[:len(s)-len(suf)]` when `suf` is a suffix, else `s`. -/
def TrimSuffix (s suf : String) : String :=
  if HasSuffix s suf then ⟨s.data.take (s.data.length - suf.data.length)⟩ else s

/-- Go `strings.Split(s, string(sep))` for a one-character separator. -/
def Split (s : String) (sep : Char) : List String :=
  (s.data.splitOn sep).map String.mk

/-! ## The lock registry (`seen`, `mu`, `getRepoLock`) -/

/-- The map `seen : map[string]bool`, read through `seen[k]` (absent keys read `false`). -/
abbrev Seen := String → Bool

/-- The registry built by `make(map[string]bool)`. -/
def Seen.empty : Seen := fun _ => false

/-- The assignment `seen[k] = true`. -/
def Seen.mark (seen : Seen) (k : String) : Seen :=
  fun q => if q = k then true else seen q

/-- Function `getRepoLock`: the returned value is `!seen[repoPath]` read before the
deferred `seen[repoPath] = true` runs; the second component is the registry afterwards. -/
def getRepoLock (seen : Seen) (repoPath : String) : Bool × Seen :=
  (!seen repoPath, seen.mark repoPath)

/-- The answers of a sequence of `getRepoLock` calls made one after another. -/
def lockRun : Seen → List String → List Bool
  | _, [] => []
  | seen, p :: ps => (getRepoLock seen p).1 :: lockRun (getRepoLock seen p).2 ps

/-- The registry after a sequence of `getRepoLock` calls. -/
def lockState : Seen → List String → Seen
  | seen, [] => seen
  | seen, p :: ps => lockState (getRepoLock seen p).2 ps

/-! ## Collaborators of `getter.go` -/

/-- A non-nil Go `error`: its message and what `os.IsNotExist` answers on it.
A returned error is `Option GoError`, with `none` for `nil`. -/
structure GoError where
  text : String
  IsNotExist : Bool
deriving DecidableEq, Repr

/-- A `*url.URL`, through the three observations `getter.go` makes of it:
`text` is what `String()` returns, `Host` and `Path` are the fields. -/
structure URL where
  text : String
  Host : String
  Path : String
deriving DecidableEq, Repr

/-- A `*VCSBackend`: the answers of its `Clone` and `Update` operations; `name`
identifies the backend in the event list. -/
structure VCSBackend where
  name : String
  Clone : URL → String → Bool → Bool → Option GoError
  Update : String → Bool → Option GoError

/-- A `*LocalRepository`: the fields `FullPath` and `RootPath`, and the answer of
`VCS()` (backend or nil, and the detected repository path). -/
structure LocalRepository where
  FullPath : String
  RootPath : String
  VCS : Option VCSBackend × String

/-- A `RemoteRepository`: the answers of `URL()`, `IsValid()` and `VCS()` (backend
or nil, and the possibly rewritten fetch URL). -/
structure RemoteRepository where
  URL : Ghq.URL
  IsValid : Bool
  VCS : Option VCSBackend × Ghq.URL

/-- What one call observes outside `getter.go`: the standard library (`filepath`,
`os`, `fmt`), and the functions of the package that live in other files. -/
structure World where
  /-- Constant `filepath.Separator`. -/
  Separator : Char
  /-- Function `os.Getwd`. -/
  Getwd : Except GoError String
  /-- Function `filepath.Join`. -/
  Join : List String → String
  /-- Function `filepath.Clean`. -/
  Clean : String → String
  /-- The verb `%q` of `fmt` on a string. -/
  Quote : String → String
  /-- The verb `%q` of `fmt` on a `*url.URL` (possibly nil). -/
  QuoteURL : Option URL → String
  /-- Function `os.Stat`, its error only. -/
  Stat : String → Option GoError
  localRepositoryRoots : Except GoError (List String)
  newURL : String → Except GoError URL
  /-- On failure, the URL returned next to the error is kept for the message. -/
  convertGitURLHTTPToSSH : URL → Except (Option URL × GoError) URL
  NewRemoteRepository : URL → Except GoError RemoteRepository
  LocalRepositoryFromURL : URL → Except GoError LocalRepository
  /-- The map `vcsRegistry`, read through `vcsRegistry[name]` (nil when absent). -/
  vcsRegistry : String → Option VCSBackend

/-- What a call does that can be observed from outside, in order. -/
inductive Event where
  /-- A call `logger.Log(kind, msg)`. -/
  | log (kind msg : String)
  /-- The call `remote.VCS()`. -/
  | remoteVCS
  /-- The call `local.VCS()`. -/
  | localVCS
  /-- A call `vcs.Clone(url, path, shallow, silent)` on the backend named `vcs`. -/
  | clone (vcs : String) (url : URL) (path : String) (shallow silent : Bool)
  /-- A call `vcs.Update(path, silent)` on the backend named `vcs`. -/
  | update (vcs : String) (path : String) (silent : Bool)
deriving DecidableEq, Repr

/-- Whether the event is a backend operation (`Clone` or `Update`). -/
def Event.isBackendOp : Event → Bool
  | .clone .. => true
  | .update .. => true
  | _ => false

/-- Whether the event is a `Clone` with local path `R`. -/
def Event.isCloneAt (R : String) : Event → Bool
  | .clone _ _ p _ _ => decide (p = R)
  | _ => false

/-- Whether the event is a `Clone`. -/
def Event.isClone : Event → Bool
  | .clone .. => true
  | _ => false

/-- The result of a call: the returned error (`none` for nil), the events in
order, and the registry afterwards. -/
structure Outcome where
  err : Option GoError
  events : List Event
  seen : Seen

/-- The receiver type `getter`. -/
structure getter where
  update : Bool
  shallow : Bool
  silent : Bool
  ssh : Bool
  vcs : String
deriving DecidableEq, Repr

/-- Go `fmt.Errorf` and `xerrors.Errorf` results: an error that is not a not-exist error. -/
def errorf (msg : String) : GoError := ⟨msg, false⟩

/-! ## `getter.getRemoteRepository` -/

/-- Lines 129-132: `if getRepoLock(repoPath) { return vcs.Clone(...) }; return nil`. -/
def lockedClone (g : getter) (vcs : VCSBackend) (repoURL : URL) (repoPath : String)
    (events : List Event) (seen : Seen) : Outcome :=
  if (getRepoLock seen repoPath).1 then
    ⟨vcs.Clone repoURL repoPath g.shallow g.silent,
     events ++ [Event.clone vcs.name repoURL repoPath g.shallow g.silent],
     (getRepoLock seen repoPath).2⟩
  else
    ⟨none, events, (getRepoLock seen repoPath).2⟩

/-- Lines 140-143: `if getRepoLock(repoPath) { return vcs.Update(...) }; return nil`. -/
def lockedUpdate (g : getter) (vcs : VCSBackend) (repoPath : String)
    (events : List Event) (seen : Seen) : Outcome :=
  if (getRepoLock seen repoPath).1 then
    ⟨vcs.Update repoPath g.silent,
     events ++ [Event.update vcs.name repoPath g.silent],
     (getRepoLock seen repoPath).2⟩
  else
    ⟨none, events, (getRepoLock seen repoPath).2⟩

/-- Method `getter.getRemoteRepository`. -/
def getRemoteRepository (w : World) (g : getter) (remote : RemoteRepository)
    (seen : Seen) : Outcome :=
  let remoteURL := remote.URL
  match w.LocalRepositoryFromURL remoteURL with
  | .error err => ⟨some err, [], seen⟩
  | .ok loc =>
    let path := loc.FullPath
    let root := loc.RootPath
    -- lines 97-108: `newPath` and the error left after the not-exist test
    let newPath : Bool := match w.Stat path with
      | some e => e.IsNotExist
      | none => false
    let err : Option GoError := match w.Stat path with
      | some e => if e.IsNotExist then none else some e
      | none => none
    match err with
    | some e => ⟨some e, [], seen⟩
    | none =>
      if newPath then
        let ev := [Event.log "clone" (remoteURL.text ++ " -> " ++ path)]
        match w.vcsRegistry g.vcs with
        | some vcs => lockedClone g vcs remoteURL path ev seen
        | none =>
          match remote.VCS with
          | (none, _) =>
            ⟨some (errorf ("Could not find version control system: " ++ remoteURL.text)),
             ev ++ [Event.remoteVCS], seen⟩
          | (some vcs, repoURL) =>
            let repoPath :=
              if HasPrefix remoteURL.text (TrimSuffix repoURL.text ".git") then
                TrimSuffix (w.Join [root, repoURL.Host, repoURL.Path]) ".git"
              else path
            lockedClone g vcs repoURL repoPath (ev ++ [Event.remoteVCS]) seen
      else if g.update then
        let ev := [Event.log "update" path, Event.localVCS]
        match loc.VCS with
        | (none, _) => ⟨some (errorf ("failed to detect VCS for " ++ w.Quote path)), ev, seen⟩
        | (some vcs, repoPath) => lockedUpdate g vcs repoPath ev seen
      else
        ⟨none, [Event.log "exists" path], seen⟩

/-! ## `getter.get` -/

/-- Lines 41, 46-51 of `get`: the loop over the roots that picks `repoPath`. -/
def guessRepoPath (sep : Char) (path : String) (roots : List String) : String :=
  roots.foldl
    (fun repoPath r =>
      let p := TrimPrefix path (r ++ String.singleton sep)
      if p != path && (repoPath == "" || decide (len p < len repoPath)) then p else repoPath)
    ""

/-- Lines 36-59 of `get`: the value of `argURL` handed to `newURL` with the events
of the step, or the error of `localRepositoryRoots` that `get` returns. -/
def relativeArgURL (w : World) (argURL : String) : Except GoError (String × List Event) :=
  let parts := Split argURL w.Separator
  if parts.head? = some "." ∨ parts.head? = some ".." then
    match w.Getwd with
    | .ok wd =>
      let path := w.Clean (w.Join [wd, w.Join parts])
      match w.localRepositoryRoots with
      | .error err => .error err
      | .ok roots =>
        let repoPath := guessRepoPath w.Separator path roots
        if repoPath != "" then
          .ok ("https://" ++ repoPath,
               [Event.log "resolved"
                 ("relative " ++ w.Quote argURL ++ " to " ++ w.Quote ("https://" ++ repoPath))])
        else .ok (argURL, [])
    | .error _ => .ok (argURL, [])
  else .ok (argURL, [])

/-- The rest of an outcome after the events `pre` have already happened. -/
def Outcome.after (pre : List Event) (o : Outcome) : Outcome :=
  ⟨o.err, pre ++ o.events, o.seen⟩

/-- Method `getter.get`. -/
def get (w : World) (g : getter) (argURL : String) (seen : Seen) : Outcome :=
  match relativeArgURL w argURL with
  | .error err => ⟨some err, [], seen⟩
  | .ok (argURL, ev) =>
    match w.newURL argURL with
    | .error err =>
      ⟨some (errorf ("Could not parse URL " ++ w.Quote argURL ++ ": " ++ err.text)), ev, seen⟩
    | .ok u =>
      let converted : Except (Option URL × GoError) URL :=
        if g.ssh then w.convertGitURLHTTPToSSH u else .ok u
      match converted with
      | .error (u, err) =>
        ⟨some (errorf ("Could not convet URL " ++ w.QuoteURL u ++ ": " ++ err.text)), ev, seen⟩
      | .ok u =>
        match w.NewRemoteRepository u with
        | .error err => ⟨some err, ev, seen⟩
        | .ok remote =>
          if !remote.IsValid then
            ⟨some (errorf ("Not a valid repository: " ++ u.text)), ev, seen⟩
          else (getRemoteRepository w g remote seen).after ev

/-! ## Sequences of calls -/

/-- One call of `getRemoteRepository`: the receiver, the argument and what the
call observes of its collaborators. -/
structure Call where
  w : World
  g : getter
  remote : RemoteRepository

/-- The outcomes of calls made one after another, each on the registry the
previous one left. -/
def runCalls : Seen → List Call → List Outcome
  | _, [] => []
  | seen, c :: cs =>
    getRemoteRepository c.w c.g c.remote seen ::
      runCalls (getRemoteRepository c.w c.g c.remote seen).seen cs

/-- The registry after a sequence of calls. -/
def seenAfter : Seen → List Call → Seen
  | seen, [] => seen
  | seen, c :: cs => seenAfter (getRemoteRepository c.w c.g c.remote seen).seen cs

/-- All events of a sequence of calls, in order. -/
def allEvents (seen : Seen) (cs : List Call) : List Event :=
  ((runCalls seen cs).map Outcome.events).flatten

/-! ## Where a call reaches `getRepoLock` -/

/-- Lines 89-128 of `getRemoteRepository`: the value of `repoPath` with which the
call reaches `getRepoLock` on line 129, `none` when it does not reach that line. -/
def freshRepoPath (c : Call) : Option String :=
  match c.w.LocalRepositoryFromURL c.remote.URL with
  | .error _ => none
  | .ok loc =>
    match c.w.Stat loc.FullPath with
    | none => none
    | some e =>
      if e.IsNotExist then
        match c.w.vcsRegistry c.g.vcs with
        | some _ => some loc.FullPath
        | none =>
          match c.remote.VCS with
          | (none, _) => none
          | (some _, repoURL) =>
            some (if HasPrefix c.remote.URL.text (TrimSuffix repoURL.text ".git") then
                    TrimSuffix (c.w.Join [loc.RootPath, repoURL.Host, repoURL.Path]) ".git"
                  else loc.FullPath)
      else none

/-- Lines 89-108 and 134-139 of `getRemoteRepository`: the value of `repoPath` with
which the call reaches `getRepoLock` on line 140, `none` when it does not reach
that line. -/
def updateRepoPath (c : Call) : Option String :=
  match c.w.LocalRepositoryFromURL c.remote.URL with
  | .error _ => none
  | .ok loc =>
    match c.w.Stat loc.FullPath with
    | some _ => none
    | none =>
      if c.g.update then
        match loc.VCS with
        | (none, _) => none
        | (some _, repoPath) => some repoPath
      else none

/-- The argument of the one `getRepoLock` call a `getRemoteRepository` call makes,
`none` when it makes none. -/
def lockPath (c : Call) : Option String :=
  match freshRepoPath c with
  | some p => some p
  | none => updateRepoPath c

/-- The outcome of a call on a given registry. -/
def Call.run (c : Call) (seen : Seen) : Outcome :=
  getRemoteRepository c.w c.g c.remote seen

/-! ## Sample collaborators

Concrete answers for the collaborators, used to run the definitions above on
explicit inputs. -/

/-- Lexical processing of the components of a slash-separated path: empty and `.`
components are dropped, `..` removes the component before it (kept at the start
of a relative path, dropped at the root). `acc` holds the result so far, reversed. -/
def cleanParts (rooted : Bool) : List String → List String → List String
  | acc, [] => acc.reverse
  | acc, p :: ps =>
    if p = "" ∨ p = "." then cleanParts rooted acc ps
    else if p = ".." then
      match acc with
      | [] => if rooted then cleanParts rooted [] ps else cleanParts rooted [".."] ps
      | q :: acc' =>
        if q = ".." then cleanParts rooted (".." :: q :: acc') ps
        else cleanParts rooted acc' ps
    else cleanParts rooted (p :: acc) ps

/-- Function `filepath.Clean` on a system whose separator is `/`. -/
def unixClean (s : String) : String :=
  let rooted := HasPrefix s "/"
  let body := String.intercalate "/" (cleanParts rooted [] (Split s '/'))
  if rooted then "/" ++ body else if body = "" then "." else body

/-- Function `filepath.Join` on a system whose separator is `/`. -/
def unixJoin (elems : List String) : String :=
  match elems.filter (fun e => e ≠ "") with
  | [] => ""
  | es => unixClean (String.intercalate "/" es)

/-- The double quote character as a string. -/
def dquote : String := String.singleton (Char.ofNat 34)

/-- A URL parser for plain `host/path` and `https://host/path` arguments. -/
def sampleNewURL (s : String) : Except GoError URL :=
  let full := if HasPrefix s "https://" then s else "https://" ++ s
  let rest := (TrimPrefix full "https://").data
  .ok ⟨full, ⟨rest.takeWhile (fun ch => ch ≠ '/')⟩, ⟨rest.dropWhile (fun ch => ch ≠ '/')⟩⟩

/-- A backend named `git` whose operations succeed. -/
def gitBackend : VCSBackend := ⟨"git", fun _ _ _ _ => none, fun _ _ => none⟩

/-- A backend named `git` whose operations fail. -/
def failingBackend : VCSBackend :=
  ⟨"git", fun _ _ _ _ => some ⟨"exit status 128", false⟩, fun _ _ => some ⟨"exit status 1", false⟩⟩

/-- A system with separator `/`, working directory `wd`, the given roots (the first
is the primary one), stat answers and on-disk detection answer; every remote is
valid and served by `gitBackend` at its own URL; the backend registry knows `git`. -/
def sampleWorld (wd : String) (roots : List String) (stat : String → Option GoError)
    (detected : Option VCSBackend × String) : World where
  Separator := '/'
  Getwd := .ok wd
  Join := unixJoin
  Clean := unixClean
  Quote := fun s => dquote ++ s ++ dquote
  QuoteURL := fun u =>
    match u with
    | some u => dquote ++ u.text ++ dquote
    | none => "<nil>"
  Stat := stat
  localRepositoryRoots := .ok roots
  newURL := sampleNewURL
  convertGitURLHTTPToSSH := fun u => .ok ⟨"ssh://git@" ++ u.Host ++ u.Path, u.Host, u.Path⟩
  NewRemoteRepository := fun u => .ok ⟨u, true, (some gitBackend, u)⟩
  LocalRepositoryFromURL := fun u =>
    .ok ⟨TrimSuffix (unixJoin [roots.headD "", u.Host, u.Path]) ".git", roots.headD "", detected⟩
  vcsRegistry := fun n => if n = "git" then some gitBackend else none

/-- Stat answers of a file system on which nothing exists. -/
def statNothing : String → Option GoError :=
  fun p => some ⟨"stat " ++ p ++ ": no such file or directory", true⟩

/-- Stat answers of a file system on which everything exists. -/
def statEverything : String → Option GoError := fun _ => none

/-- Stat answers of a file system that denies access. -/
def statDenied : String → Option GoError :=
  fun p => some ⟨"stat " ++ p ++ ": permission denied", false⟩

/-- The flags of a getter with nothing set. -/
def defaultGetter : getter := ⟨false, false, false, false, ""⟩

/-- The URL `https://github.com/example/repo`. -/
def exampleURL : URL := ⟨"https://github.com/example/repo", "github.com", "/example/repo"⟩

/-- The remote at `exampleURL`, served by `gitBackend` at the same URL. -/
def exampleRemote : RemoteRepository := ⟨exampleURL, true, (some gitBackend, exampleURL)⟩

/-! ## The loop invariant of the relative-path step -/

/-- What the loop has established after the roots `done`, when no root leaves the
empty suffix: nothing matched and `st` is empty, or `st` is the shortest suffix
left by a matching root. -/
def GuessInv (sep : Char) (path st : String) (done : List String) : Prop :=
  (st = "" ∧ ∀ r ∈ done, HasPrefix path (r ++ String.singleton sep) = false)
  ∨ (st ≠ "" ∧ ∃ r ∈ done, HasPrefix path (r ++ String.singleton sep) = true
      ∧ st = TrimPrefix path (r ++ String.singleton sep)
      ∧ ∀ r' ∈ done, HasPrefix path (r' ++ String.singleton sep) = true →
          len st ≤ len (TrimPrefix path (r' ++ String.singleton sep)))

instance (sep : Char) (path st : String) (done : List String) :
    Decidable (GuessInv sep path st done) := by
  unfold GuessInv
  infer_instance

/-! ## The registry: first caller wins -/

theorem seen_mark_self (seen : Seen) (k : String) : seen.mark k k = true := by
  simp [Seen.mark]

theorem seen_mark_of_ne (seen : Seen) {k q : String} (h : q ≠ k) : seen.mark k q = seen q := by
  simp [Seen.mark, h]

theorem seen_mark_mono (seen : Seen) (k q : String) (h : seen q = true) :
    seen.mark k q = true := by
  simp [Seen.mark, h]

theorem lockRun_getElem? (P : String) :
    ∀ (paths : List String) (seen : Seen) (i : Nat), paths[i]? = some P →
      (lockRun seen paths)[i]? = some (!seen P && decide (P ∉ paths.take i)) := by
  intro paths
  induction paths with
  | nil => intro seen i h; simp at h
  | cons p ps ih =>
    intro seen i h
    cases i with
    | zero =>
      simp at h
      subst h
      simp [lockRun, getRepoLock]
    | succ i =>
      simp at h
      have h2 := ih (seen.mark p) i h
      simp only [lockRun, List.getElem?_cons_succ, getRepoLock, h2]
      by_cases hp : P = p
      · subst hp; simp [seen_mark_self]
      · simp [seen_mark_of_ne _ hp, hp]

theorem lockRun_count (P : String) :
    ∀ (paths : List String) (seen : Seen),
      (paths.zip (lockRun seen paths)).count (P, true)
        = if seen P = false ∧ P ∈ paths then 1 else 0 := by
  intro paths
  induction paths with
  | nil => intro seen; simp [lockRun]
  | cons p ps ih =>
    intro seen
    simp only [lockRun, List.zip_cons_cons, List.count_cons, ih, getRepoLock]
    by_cases hp : P = p
    · subst hp
      cases hs : seen P <;> simp [seen_mark_self, hs]
    · have hp' : ¬ p = P := fun h => hp h.symm
      simp [seen_mark_of_ne _ hp, hp, hp']

theorem lockState_apply (q : String) :
    ∀ (paths : List String) (seen : Seen),
      lockState seen paths q = (seen q || decide (q ∈ paths)) := by
  intro paths
  induction paths with
  | nil => intro seen; simp [lockState]
  | cons p ps ih =>
    intro seen
    rw [lockState, ih]
    by_cases hq : q = p
    · subst hq; simp [getRepoLock, seen_mark_self]
    · simp [getRepoLock, seen_mark_of_ne _ hq, hq]

/-- C1: on a registry that starts empty, in any sequence of `getRepoLock` calls,
a call for path `P` answers `true` exactly when no earlier call of the sequence
was for `P` (so the first call for `P` answers `true` and every later one
`false`); over the whole sequence the answer `true` is given for `P` exactly
once when `P` is called at all; and the registry at the end has exactly the
called paths claimed (no entry is removed or reset). -/
theorem getRepoLock_true_exactly_once (P : String) (paths : List String) :
    (∀ i : Nat, paths[i]? = some P →
        (lockRun Seen.empty paths)[i]? = some (decide (P ∉ paths.take i)))
    ∧ (paths.zip (lockRun Seen.empty paths)).count (P, true)
        = (if P ∈ paths then 1 else 0)
    ∧ (∀ q, lockState Seen.empty paths q = decide (q ∈ paths)) := by
  refine ⟨fun i h => ?_, ?_, fun q => ?_⟩
  · rw [lockRun_getElem? P paths Seen.empty i h]; simp [Seen.empty]
  · rw [lockRun_count]; simp [Seen.empty]
  · rw [lockState_apply]; simp [Seen.empty]

/-- On the calls `/r/a, /r/b, /r/a, /r/a`: the first call for `/r/a` answers `true`, the two
later ones `false`, and `true` is answered for `/r/a` once. -/
theorem getRepoLock_true_exactly_once_witness :
    (lockRun Seen.empty ["/r/a", "/r/b", "/r/a", "/r/a"])[0]? = some true
    ∧ (lockRun Seen.empty ["/r/a", "/r/b", "/r/a", "/r/a"])[2]? = some false
    ∧ (lockRun Seen.empty ["/r/a", "/r/b", "/r/a", "/r/a"])[3]? = some false
    ∧ (["/r/a", "/r/b", "/r/a", "/r/a"].zip
        (lockRun Seen.empty ["/r/a", "/r/b", "/r/a", "/r/a"])).count ("/r/a", true) = 1 := by
  have h := getRepoLock_true_exactly_once "/r/a" ["/r/a", "/r/b", "/r/a", "/r/a"]
  refine ⟨?_, ?_, ?_, ?_⟩
  · simpa using h.1 0 (by decide)
  · simpa using h.1 2 (by decide)
  · simpa using h.1 3 (by decide)
  · simpa using h.2.1

/-! ## One call of `getRemoteRepository` -/

theorem lockedClone_seen (g : getter) (vcs : VCSBackend) (u : URL) (R : String)
    (ev : List Event) (seen : Seen) :
    (lockedClone g vcs u R ev seen).seen = seen.mark R := by
  unfold lockedClone; split <;> rfl

theorem lockedUpdate_seen (g : getter) (vcs : VCSBackend) (R : String)
    (ev : List Event) (seen : Seen) :
    (lockedUpdate g vcs R ev seen).seen = seen.mark R := by
  unfold lockedUpdate; split <;> rfl

/-- A call that reaches line 129 is the locked clone on the final `repoPath`, after
events that are not backend operations. -/
theorem run_of_freshRepoPath (c : Call) (R : String) (h : freshRepoPath c = some R) :
    ∃ (vcs : VCSBackend) (u : URL) (ev : List Event),
      (∀ e ∈ ev, e.isBackendOp = false) ∧
      ∀ seen, c.run seen = lockedClone c.g vcs u R ev seen := by
  unfold freshRepoPath at h
  unfold Call.run getRemoteRepository
  split at h
  · simp at h
  · rename_i loc hloc
    simp only [hloc]
    split at h
    · simp at h
    · rename_i e he
      simp only [he]
      split at h
      · rename_i hne
        simp only [hne, if_true]
        split at h
        · rename_i vcs hv
          simp only [Option.some.injEq] at h
          subst h
          exact ⟨vcs, _, _, by simp [Event.isBackendOp], fun _ => rfl⟩
        · rename_i hv
          split at h
          · simp at h
          · rename_i vcs repoURL hr
            simp only [Option.some.injEq] at h
            subst h
            exact ⟨vcs, _, _, by simp [Event.isBackendOp], fun _ => rfl⟩
      · simp at h


/-- A call that reaches line 140 is the locked update on the detected `repoPath`,
after events that are not backend operations. -/
theorem run_of_updateRepoPath (c : Call) (R : String) (h : updateRepoPath c = some R) :
    ∃ (vcs : VCSBackend) (ev : List Event),
      (∀ e ∈ ev, e.isBackendOp = false) ∧
      ∀ seen, c.run seen = lockedUpdate c.g vcs R ev seen := by
  unfold updateRepoPath at h
  unfold Call.run getRemoteRepository
  split at h
  · simp at h
  · rename_i loc hloc
    simp only [hloc]
    split at h
    · simp at h
    · rename_i he
      simp only [he]
      split at h
      · rename_i hu
        split at h
        · simp at h
        · rename_i vcs repoPath hr
          simp only [Option.some.injEq] at h
          subst h
          refine ⟨vcs, [Event.log "update" loc.FullPath, Event.localVCS], ?_, fun seen => ?_⟩
          · simp [Event.isBackendOp]
          · simp [hu]
      · simp at h

/-- A call that reaches neither line 129 nor line 140 leaves the registry as it
was and invokes no backend operation. -/
theorem run_of_lockPath_none (c : Call) (h : lockPath c = none) (seen : Seen) :
    (c.run seen).seen = seen ∧ ∀ e ∈ (c.run seen).events, e.isBackendOp = false := by
  unfold lockPath at h
  split at h
  · simp at h
  · rename_i hf
    unfold freshRepoPath at hf
    unfold updateRepoPath at h
    unfold Call.run getRemoteRepository
    split at hf
    · rename_i err herr
      simp [herr]
    · rename_i loc hloc
      simp only [hloc] at h ⊢
      split at hf
      · rename_i he
        simp only [he] at h ⊢
        split at h
        · rename_i hu
          split at h
          · rename_i hr
            simp [hu, hr, Event.isBackendOp]
          · simp at h
        · rename_i hu
          simp [hu, Event.isBackendOp]
      · rename_i e he
        simp only [he] at h ⊢
        split at hf
        · rename_i hne
          split at hf
          · simp at hf
          · rename_i hv
            split at hf
            · rename_i hr
              simp [hne, hv, hr, Event.isBackendOp]
            · simp at hf
        · rename_i hne
          simp [hne]

/-- C4: when the mapped local path exists (stat succeeds) and `update` is false,
`getRemoteRepository` returns nil, invokes neither `Clone` nor `Update` (its only
event is the "exists" log line) and leaves the registry as it was, whatever the
other flags, the forced backend name and the registry are. -/
theorem existing_without_update_is_noop (w : World) (g : getter) (remote : RemoteRepository)
    (seen : Seen) (loc : LocalRepository)
    (hloc : w.LocalRepositoryFromURL remote.URL = .ok loc)
    (hstat : w.Stat loc.FullPath = none) (hupd : g.update = false) :
    (getRemoteRepository w g remote seen).err = none
    ∧ (getRemoteRepository w g remote seen).events = [Event.log "exists" loc.FullPath]
    ∧ (∀ e ∈ (getRemoteRepository w g remote seen).events, e.isBackendOp = false)
    ∧ (getRemoteRepository w g remote seen).seen = seen := by
  simp [getRemoteRepository, hloc, hstat, hupd, Event.isBackendOp]

/-- An existing path, `update = false`, every other flag set and a forced backend:
nil is returned and the only event is the log line. -/
theorem existing_without_update_is_noop_witness :
    (sampleWorld "/" ["/home/u/ghq"] statEverything (some gitBackend, "")).Stat
        "/home/u/ghq/github.com/example/repo" = none
    ∧ (getRemoteRepository (sampleWorld "/" ["/home/u/ghq"] statEverything (some gitBackend, ""))
        ⟨false, true, true, true, "git"⟩ exampleRemote (Seen.empty.mark "x")).err = none
    ∧ (getRemoteRepository (sampleWorld "/" ["/home/u/ghq"] statEverything (some gitBackend, ""))
        ⟨false, true, true, true, "git"⟩ exampleRemote (Seen.empty.mark "x")).events
        = [Event.log "exists" "/home/u/ghq/github.com/example/repo"] :=
  have h := existing_without_update_is_noop
    (sampleWorld "/" ["/home/u/ghq"] statEverything (some gitBackend, ""))
    ⟨false, true, true, true, "git"⟩ exampleRemote (Seen.empty.mark "x")
    ⟨"/home/u/ghq/github.com/example/repo", "/home/u/ghq", (some gitBackend, "")⟩
    (by rfl) (by rfl) (by rfl)
  ⟨by rfl, h.1, h.2.1⟩

/-- C6: when stat of the mapped local path fails with an error `e` that is not a
not-exist error, `getRemoteRepository` returns exactly `e` and nothing is invoked
(no event at all, so no `Clone` and no `Update`). -/
theorem stat_error_is_returned (w : World) (g : getter) (remote : RemoteRepository)
    (seen : Seen) (loc : LocalRepository) (e : GoError)
    (hloc : w.LocalRepositoryFromURL remote.URL = .ok loc)
    (hstat : w.Stat loc.FullPath = some e) (hne : e.IsNotExist = false) :
    (getRemoteRepository w g remote seen).err = some e
    ∧ (getRemoteRepository w g remote seen).events = []
    ∧ (∀ ev ∈ (getRemoteRepository w g remote seen).events, ev.isBackendOp = false) := by
  simp [getRemoteRepository, hloc, hstat, hne]

/-- A file system that denies access: the permission error of stat is what the call
returns, and there is no event. -/
theorem stat_error_is_returned_witness :
    (sampleWorld "/" ["/home/u/ghq"] statDenied (none, "")).Stat
        "/home/u/ghq/github.com/example/repo"
      = some ⟨"stat /home/u/ghq/github.com/example/repo: permission denied", false⟩
    ∧ (getRemoteRepository (sampleWorld "/" ["/home/u/ghq"] statDenied (none, ""))
        ⟨true, false, false, false, "git"⟩ exampleRemote Seen.empty).err
      = some ⟨"stat /home/u/ghq/github.com/example/repo: permission denied", false⟩
    ∧ (getRemoteRepository (sampleWorld "/" ["/home/u/ghq"] statDenied (none, ""))
        ⟨true, false, false, false, "git"⟩ exampleRemote Seen.empty).events = [] :=
  have h := stat_error_is_returned
    (sampleWorld "/" ["/home/u/ghq"] statDenied (none, ""))
    ⟨true, false, false, false, "git"⟩ exampleRemote Seen.empty
    ⟨"/home/u/ghq/github.com/example/repo", "/home/u/ghq", (none, "")⟩
    ⟨"stat /home/u/ghq/github.com/example/repo: permission denied", false⟩
    (by rfl) (by decide) (by rfl)
  ⟨by decide, h.1, h.2.1⟩

/-- C7: on a fresh mapped path (stat reports not-exist), with a backend forced by
the getter's `vcs` field and the mapped path not claimed before, the forced
backend's `Clone` is invoked exactly once, with the remote's own URL, the mapped
`FullPath`, `g.shallow` and `g.silent`; `remote.VCS()` is not consulted; the call
returns what `Clone` returned; and the mapped path is now claimed. The scenario
of the specification is the last part: `get("github.com/example/repo")` with
default flags, primary root `/home/u/ghq`, nothing on disk and an empty registry
invokes `Clone(https://github.com/example/repo, /home/u/ghq/github.com/example/repo,
false, false)` once and returns nil (no backend is forced there: the registry has
no entry for the empty name, and the remote reports `git` at its own URL). -/
theorem forced_backend_clones_mapped_path (w : World) (g : getter) (remote : RemoteRepository)
    (seen : Seen) (loc : LocalRepository) (e : GoError) (vcs : VCSBackend)
    (hloc : w.LocalRepositoryFromURL remote.URL = .ok loc)
    (hstat : w.Stat loc.FullPath = some e) (hne : e.IsNotExist = true)
    (hforced : w.vcsRegistry g.vcs = some vcs) (hfree : seen loc.FullPath = false) :
    (getRemoteRepository w g remote seen).events
        = [Event.log "clone" (remote.URL.text ++ " -> " ++ loc.FullPath),
           Event.clone vcs.name remote.URL loc.FullPath g.shallow g.silent]
    ∧ (getRemoteRepository w g remote seen).events.countP Event.isBackendOp = 1
    ∧ Event.remoteVCS ∉ (getRemoteRepository w g remote seen).events
    ∧ (getRemoteRepository w g remote seen).err
        = vcs.Clone remote.URL loc.FullPath g.shallow g.silent
    ∧ (getRemoteRepository w g remote seen).seen loc.FullPath = true
    ∧ (get (sampleWorld "/" ["/home/u/ghq"] statNothing (none, "")) defaultGetter
          "github.com/example/repo" Seen.empty).events
        = [Event.log "clone"
             "https://github.com/example/repo -> /home/u/ghq/github.com/example/repo",
           Event.remoteVCS,
           Event.clone "git" exampleURL "/home/u/ghq/github.com/example/repo" false false]
    ∧ (get (sampleWorld "/" ["/home/u/ghq"] statNothing (none, "")) defaultGetter
          "github.com/example/repo" Seen.empty).err = none := by
  refine ⟨?_, ?_, ?_, ?_, ?_, by decide, by decide⟩ <;>
  simp [getRemoteRepository, hloc, hstat, hne, hforced, lockedClone, getRepoLock, hfree,
    Event.isBackendOp, seen_mark_self]

/-- Backend `git` forced, nothing on disk, empty registry, a remote that reports no
backend of its own: one `Clone` of the remote URL into the mapped path, shallow. -/
theorem forced_backend_clones_mapped_path_witness :
    (getRemoteRepository (sampleWorld "/" ["/home/u/ghq"] statNothing (none, ""))
        ⟨false, true, false, false, "git"⟩
        ⟨exampleURL, true, (none, exampleURL)⟩ Seen.empty).events
      = [Event.log "clone" "https://github.com/example/repo -> /home/u/ghq/github.com/example/repo",
         Event.clone "git" exampleURL "/home/u/ghq/github.com/example/repo" true false]
    ∧ (getRemoteRepository (sampleWorld "/" ["/home/u/ghq"] statNothing (none, ""))
        ⟨false, true, false, false, "git"⟩
        ⟨exampleURL, true, (none, exampleURL)⟩ Seen.empty).err = none :=
  have h := forced_backend_clones_mapped_path
    (sampleWorld "/" ["/home/u/ghq"] statNothing (none, ""))
    ⟨false, true, false, false, "git"⟩ ⟨exampleURL, true, (none, exampleURL)⟩ Seen.empty
    ⟨"/home/u/ghq/github.com/example/repo", "/home/u/ghq", (none, "")⟩
    ⟨"stat /home/u/ghq/github.com/example/repo: no such file or directory", true⟩
    gitBackend (by rfl) (by decide) (by rfl) (by rfl) (by rfl)
  ⟨h.1, h.2.2.2.1⟩

/-- C8: with `update = true` on an existing mapped path, admission is decided on
the path detected by `local.VCS()`: the registry afterwards has exactly that
path claimed in addition; when it was not claimed, `Update(repoPath, g.silent)`
is invoked exactly once on the detected backend and its result is returned;
when it was claimed, no backend operation is invoked and nil is returned. When
`local.VCS()` reports no backend, the call returns the "failed to detect VCS"
error, invokes nothing and leaves the registry as it was. -/
theorem update_admits_on_detected_path (w : World) (g : getter) (remote : RemoteRepository)
    (seen : Seen) (loc : LocalRepository)
    (hloc : w.LocalRepositoryFromURL remote.URL = .ok loc)
    (hstat : w.Stat loc.FullPath = none) (hupd : g.update = true) :
    (∀ (vcs : VCSBackend) (repoPath : String), loc.VCS = (some vcs, repoPath) →
        (getRemoteRepository w g remote seen).seen = seen.mark repoPath
        ∧ (seen repoPath = false →
            (getRemoteRepository w g remote seen).events
              = [Event.log "update" loc.FullPath, Event.localVCS,
                 Event.update vcs.name repoPath g.silent]
            ∧ (getRemoteRepository w g remote seen).events.countP Event.isBackendOp = 1
            ∧ (getRemoteRepository w g remote seen).err = vcs.Update repoPath g.silent)
        ∧ (seen repoPath = true →
            (getRemoteRepository w g remote seen).err = none
            ∧ ∀ ev ∈ (getRemoteRepository w g remote seen).events, ev.isBackendOp = false))
    ∧ (∀ (x : String), loc.VCS = (none, x) →
        (getRemoteRepository w g remote seen).err
          = some (errorf ("failed to detect VCS for " ++ w.Quote loc.FullPath))
        ∧ (∀ ev ∈ (getRemoteRepository w g remote seen).events, ev.isBackendOp = false)
        ∧ (getRemoteRepository w g remote seen).seen = seen) := by
  refine ⟨fun vcs repoPath hv => ⟨?_, fun hfree => ?_, fun hcl => ?_⟩, fun x hv => ?_⟩
  · simp [getRemoteRepository, hloc, hstat, hupd, hv, lockedUpdate_seen]
  · simp [getRemoteRepository, hloc, hstat, hupd, hv, lockedUpdate, getRepoLock, hfree,
      Event.isBackendOp]
  · simp [getRemoteRepository, hloc, hstat, hupd, hv, lockedUpdate, getRepoLock, hcl,
      Event.isBackendOp]
  · simp [getRemoteRepository, hloc, hstat, hupd, hv, Event.isBackendOp]

/-- Detection reports the path `/home/u/ghq/github.com/example`, above the mapped one:
`Update` runs there and its error is returned; when that path is already claimed
nil is returned; when detection reports no backend the call fails. -/
theorem update_admits_on_detected_path_witness :
    (getRemoteRepository
        (sampleWorld "/" ["/home/u/ghq"] statEverything (some failingBackend, "/home/u/ghq/github.com/example"))
        ⟨true, false, true, false, ""⟩ exampleRemote Seen.empty).events
      = [Event.log "update" "/home/u/ghq/github.com/example/repo", Event.localVCS,
         Event.update "git" "/home/u/ghq/github.com/example" true]
    ∧ (getRemoteRepository
        (sampleWorld "/" ["/home/u/ghq"] statEverything (some failingBackend, "/home/u/ghq/github.com/example"))
        ⟨true, false, true, false, ""⟩ exampleRemote Seen.empty).err
      = some ⟨"exit status 1", false⟩
    ∧ (getRemoteRepository
        (sampleWorld "/" ["/home/u/ghq"] statEverything (some failingBackend, "/home/u/ghq/github.com/example"))
        ⟨true, false, true, false, ""⟩ exampleRemote
        (Seen.empty.mark "/home/u/ghq/github.com/example")).err = none
    ∧ (getRemoteRepository
        (sampleWorld "/" ["/home/u/ghq"] statEverything (none, ""))
        ⟨true, false, true, false, ""⟩ exampleRemote Seen.empty).err
      = some (errorf "failed to detect VCS for \x22/home/u/ghq/github.com/example/repo\x22") :=
  have h1 := update_admits_on_detected_path
    (sampleWorld "/" ["/home/u/ghq"] statEverything (some failingBackend, "/home/u/ghq/github.com/example"))
    ⟨true, false, true, false, ""⟩ exampleRemote Seen.empty
    ⟨"/home/u/ghq/github.com/example/repo", "/home/u/ghq",
      (some failingBackend, "/home/u/ghq/github.com/example")⟩
    (by rfl) (by rfl) (by rfl)
  have h2 := update_admits_on_detected_path
    (sampleWorld "/" ["/home/u/ghq"] statEverything (some failingBackend, "/home/u/ghq/github.com/example"))
    ⟨true, false, true, false, ""⟩ exampleRemote
    (Seen.empty.mark "/home/u/ghq/github.com/example")
    ⟨"/home/u/ghq/github.com/example/repo", "/home/u/ghq",
      (some failingBackend, "/home/u/ghq/github.com/example")⟩
    (by rfl) (by rfl) (by rfl)
  have h3 := update_admits_on_detected_path
    (sampleWorld "/" ["/home/u/ghq"] statEverything (none, ""))
    ⟨true, false, true, false, ""⟩ exampleRemote Seen.empty
    ⟨"/home/u/ghq/github.com/example/repo", "/home/u/ghq", (none, "")⟩
    (by rfl) (by rfl) (by rfl)
  ⟨((h1.1 failingBackend _ rfl).2.1 (by rfl)).1,
   ((h1.1 failingBackend _ rfl).2.1 (by rfl)).2.2,
   ((h2.1 failingBackend _ rfl).2.2 (by decide)).1,
   (h3.2 "" rfl).1⟩


theorem HasPrefix_iff (s pre : String) : HasPrefix s pre = true ↔ ∃ t : String, s = pre ++ t := by
  unfold HasPrefix
  rw [List.isPrefixOf_iff_prefix]
  constructor
  · rintro ⟨t, ht⟩
    exact ⟨⟨t⟩, String.ext (by simp [ht])⟩
  · rintro ⟨t, rfl⟩
    exact ⟨t.data, by simp⟩

theorem lockedClone_events_free (g : getter) (vcs : VCSBackend) (u : URL) (R : String)
    (ev : List Event) (seen : Seen) (h : seen R = false) :
    (lockedClone g vcs u R ev seen).events = ev ++ [Event.clone vcs.name u R g.shallow g.silent] := by
  simp [lockedClone, getRepoLock, h]

theorem lockedClone_err_free (g : getter) (vcs : VCSBackend) (u : URL) (R : String)
    (ev : List Event) (seen : Seen) (h : seen R = false) :
    (lockedClone g vcs u R ev seen).err = vcs.Clone u R g.shallow g.silent := by
  simp [lockedClone, getRepoLock, h]

theorem lockedClone_events_claimed (g : getter) (vcs : VCSBackend) (u : URL) (R : String)
    (ev : List Event) (seen : Seen) (h : seen R = true) :
    (lockedClone g vcs u R ev seen).events = ev := by
  simp [lockedClone, getRepoLock, h]

theorem lockedClone_err_claimed (g : getter) (vcs : VCSBackend) (u : URL) (R : String)
    (ev : List Event) (seen : Seen) (h : seen R = true) :
    (lockedClone g vcs u R ev seen).err = none := by
  simp [lockedClone, getRepoLock, h]

theorem lockedUpdate_events_free (g : getter) (vcs : VCSBackend) (R : String)
    (ev : List Event) (seen : Seen) (h : seen R = false) :
    (lockedUpdate g vcs R ev seen).events = ev ++ [Event.update vcs.name R g.silent] := by
  simp [lockedUpdate, getRepoLock, h]

theorem lockedUpdate_events_claimed (g : getter) (vcs : VCSBackend) (R : String)
    (ev : List Event) (seen : Seen) (h : seen R = true) :
    (lockedUpdate g vcs R ev seen).events = ev := by
  simp [lockedUpdate, getRepoLock, h]

theorem isCloneAt_le_isBackendOp (R : String) (e : Event) (h : e.isBackendOp = false) :
    e.isCloneAt R = false := by
  cases e <;> simp_all [Event.isBackendOp, Event.isCloneAt]

theorem countP_isBackendOp_of_not_backendOp (ev : List Event)
    (h : ∀ e ∈ ev, e.isBackendOp = false) : ev.countP Event.isBackendOp = 0 := by
  rw [List.countP_eq_zero]
  intro e he
  simp [h e he]

theorem countP_isClone_of_not_backendOp (ev : List Event)
    (h : ∀ e ∈ ev, e.isBackendOp = false) : ev.countP Event.isClone = 0 := by
  rw [List.countP_eq_zero]
  intro e he
  have := h e he
  cases e <;> simp_all [Event.isBackendOp, Event.isClone]

theorem countP_isCloneAt_of_not_backendOp (R : String) (ev : List Event)
    (h : ∀ e ∈ ev, e.isBackendOp = false) : ev.countP (Event.isCloneAt R) = 0 := by
  rw [List.countP_eq_zero]
  intro e he
  simp [isCloneAt_le_isBackendOp R e (h e he)]

/-- C3 as stated fails: the mapped path does not exist, no backend is forced and
the remote reports none; the call invokes no `Clone` and is not a duplicate
skip either, since it returns the "Could not find version control system" error
(and the mapped path was never claimed). -/
theorem fresh_path_neither_clone_nor_skip :
    (sampleWorld "/" ["/home/u/ghq"] statNothing (none, "")).Stat
        "/home/u/ghq/github.com/example/repo"
      = some ⟨"stat /home/u/ghq/github.com/example/repo: no such file or directory", true⟩
    ∧ (getRemoteRepository (sampleWorld "/" ["/home/u/ghq"] statNothing (none, ""))
        defaultGetter ⟨exampleURL, true, (none, exampleURL)⟩ Seen.empty).events.countP
          Event.isClone = 0
    ∧ (getRemoteRepository (sampleWorld "/" ["/home/u/ghq"] statNothing (none, ""))
        defaultGetter ⟨exampleURL, true, (none, exampleURL)⟩ Seen.empty).err
      = some (errorf "Could not find version control system: https://github.com/example/repo") := by
  decide

/-- C3, amended: on a fresh mapped path (stat reports not-exist), when a backend is
available (forced by the getter's `vcs` field, or else reported by
`remote.VCS()`), the call reaches `getRepoLock` with a final `repoPath` and exactly
one of two outcomes occurs: that path was not claimed and `Clone` is invoked
exactly once (the only backend operation), or that path was already claimed and
the call is a duplicate skip (nil returned, no backend operation). When no
backend is available, the call returns the "Could not find version control
system" error and invokes no backend operation. -/
theorem fresh_path_clone_or_skip (w : World) (g : getter) (remote : RemoteRepository)
    (seen : Seen) (loc : LocalRepository) (e : GoError)
    (hloc : w.LocalRepositoryFromURL remote.URL = .ok loc)
    (hstat : w.Stat loc.FullPath = some e) (hne : e.IsNotExist = true) :
    ((w.vcsRegistry g.vcs).isSome = true ∨ remote.VCS.1.isSome = true →
      ∃ R, freshRepoPath ⟨w, g, remote⟩ = some R
        ∧ ((seen R = false
              ∧ (getRemoteRepository w g remote seen).events.countP (Event.isCloneAt R) = 1
              ∧ (getRemoteRepository w g remote seen).events.countP Event.isClone = 1
              ∧ (getRemoteRepository w g remote seen).events.countP Event.isBackendOp = 1)
           ∨ (seen R = true
              ∧ (getRemoteRepository w g remote seen).err = none
              ∧ (getRemoteRepository w g remote seen).events.countP Event.isBackendOp = 0)))
    ∧ ((w.vcsRegistry g.vcs).isSome = false → remote.VCS.1.isSome = false →
        (getRemoteRepository w g remote seen).err
          = some (errorf ("Could not find version control system: " ++ remote.URL.text))
        ∧ (getRemoteRepository w g remote seen).events.countP Event.isBackendOp = 0) := by
  constructor
  · intro hav
    have hR : ∃ R, freshRepoPath ⟨w, g, remote⟩ = some R := by
      cases hv : w.vcsRegistry g.vcs with
      | some vcs => exact ⟨loc.FullPath, by simp [freshRepoPath, hloc, hstat, hne, hv]⟩
      | none =>
        rcases hr : remote.VCS with ⟨ov, repoURL⟩
        cases ov with
        | none => simp [hv, hr] at hav
        | some vcs => exact ⟨_, by simp [freshRepoPath, hloc, hstat, hne, hv, hr]; rfl⟩
    obtain ⟨R, hR⟩ := hR
    refine ⟨R, hR, ?_⟩
    obtain ⟨vcs, u, ev, hev, hrun⟩ := run_of_freshRepoPath _ R hR
    have hrun' : getRemoteRepository w g remote seen = lockedClone g vcs u R ev seen := hrun seen
    rw [hrun']
    cases hs : seen R
    · left
      simp [lockedClone_events_free _ _ _ _ _ _ hs, countP_isCloneAt_of_not_backendOp _ _ hev,
        countP_isClone_of_not_backendOp _ hev, countP_isBackendOp_of_not_backendOp _ hev,
        Event.isCloneAt, Event.isClone, Event.isBackendOp]
    · right
      simp [lockedClone_events_claimed _ _ _ _ _ _ hs, lockedClone_err_claimed _ _ _ _ _ _ hs,
        countP_isBackendOp_of_not_backendOp _ hev]
  · intro hv hr
    rcases hr' : remote.VCS with ⟨ov, repoURL⟩
    rw [hr'] at hr
    simp at hv hr
    subst hr
    simp [getRemoteRepository, hloc, hstat, hne, hv, hr', Event.isBackendOp]

/-- Nothing on disk, no forced backend, the remote reports `git`: the call reaches
`getRepoLock` with the mapped path and invokes `Clone` once. -/
theorem fresh_path_clone_or_skip_witness :
    (getRemoteRepository (sampleWorld "/" ["/home/u/ghq"] statNothing (none, ""))
        defaultGetter exampleRemote Seen.empty).events.countP Event.isClone = 1
    ∧ freshRepoPath ⟨sampleWorld "/" ["/home/u/ghq"] statNothing (none, ""),
        defaultGetter, exampleRemote⟩ = some "/home/u/ghq/github.com/example/repo" := by
  have h := fresh_path_clone_or_skip
    (sampleWorld "/" ["/home/u/ghq"] statNothing (none, ""))
    defaultGetter exampleRemote Seen.empty
    ⟨"/home/u/ghq/github.com/example/repo", "/home/u/ghq", (none, "")⟩
    ⟨"stat /home/u/ghq/github.com/example/repo: no such file or directory", true⟩
    (by rfl) (by decide) (by rfl)
  obtain ⟨R, hR, hcase⟩ := h.1 (Or.inr (by rfl))
  rcases hcase with ⟨_, _, h1, _⟩ | ⟨hs, _⟩
  · exact ⟨h1, by decide⟩
  · simp [Seen.empty] at hs

/-- C9 as stated fails: the fetch URL reported by `remote.VCS()`, with its trailing
`.git` removed, is equal to the original URL's string (so it is not a strict
prefix of it), and the path handed to `Clone` is the recomputed one,
`/home/u/ghq/example.com/a.git`, not the mapped `FullPath`
`/home/u/ghq/example.com/a`. -/
theorem equal_url_strings_rebuild_repoPath :
    TrimSuffix "https://example.com/a.git.git" ".git" = "https://example.com/a.git"
    ∧ (∀ loc, (sampleWorld "/" ["/home/u/ghq"] statNothing (none, "")).LocalRepositoryFromURL
          ⟨"https://example.com/a.git", "example.com", "/a.git"⟩ = .ok loc →
        loc.FullPath = "/home/u/ghq/example.com/a")
    ∧ (getRemoteRepository (sampleWorld "/" ["/home/u/ghq"] statNothing (none, ""))
        defaultGetter
        ⟨⟨"https://example.com/a.git", "example.com", "/a.git"⟩, true,
          (some gitBackend, ⟨"https://example.com/a.git.git", "example.com", "/a.git.git"⟩)⟩
        Seen.empty).events
      = [Event.log "clone" "https://example.com/a.git -> /home/u/ghq/example.com/a",
         Event.remoteVCS,
         Event.clone "git" ⟨"https://example.com/a.git.git", "example.com", "/a.git.git"⟩
           "/home/u/ghq/example.com/a.git" false false] := by
  refine ⟨by decide, ?_, by decide⟩
  intro loc h
  simp only [sampleWorld, Except.ok.injEq] at h
  subst h
  decide

/-- C9, amended: on the fresh-path branch with no forced backend and a backend
`vcs` reported by `remote.VCS()` together with the fetch URL `repoURL`, the path
used for admission and for `Clone` is `join(root, repoURL.Host, repoURL.Path)`
with a trailing `.git` removed if and only if `repoURL`'s string with a trailing
`.git` removed is a prefix of the original URL's string, the two strings being
equal included; otherwise it is the mapped `FullPath`. In both cases the
registry afterwards has that path claimed, and when it was not claimed before,
`Clone` is invoked once with `repoURL`, that path, `g.shallow` and `g.silent` and
its result is returned; when it was claimed, nothing is invoked and nil is
returned. -/
theorem discovered_backend_repoPath (w : World) (g : getter) (remote : RemoteRepository)
    (seen : Seen) (loc : LocalRepository) (e : GoError) (vcs : VCSBackend) (repoURL : URL)
    (hloc : w.LocalRepositoryFromURL remote.URL = .ok loc)
    (hstat : w.Stat loc.FullPath = some e) (hne : e.IsNotExist = true)
    (hnf : w.vcsRegistry g.vcs = none) (hr : remote.VCS = (some vcs, repoURL)) :
    ∃ repoPath : String,
      ((∃ t : String, remote.URL.text = TrimSuffix repoURL.text ".git" ++ t) →
          repoPath = TrimSuffix (w.Join [loc.RootPath, repoURL.Host, repoURL.Path]) ".git")
      ∧ ((¬ ∃ t : String, remote.URL.text = TrimSuffix repoURL.text ".git" ++ t) →
          repoPath = loc.FullPath)
      ∧ freshRepoPath ⟨w, g, remote⟩ = some repoPath
      ∧ (getRemoteRepository w g remote seen).seen = seen.mark repoPath
      ∧ (seen repoPath = false →
          (getRemoteRepository w g remote seen).events
            = [Event.log "clone" (remote.URL.text ++ " -> " ++ loc.FullPath), Event.remoteVCS,
               Event.clone vcs.name repoURL repoPath g.shallow g.silent]
          ∧ (getRemoteRepository w g remote seen).err
            = vcs.Clone repoURL repoPath g.shallow g.silent)
      ∧ (seen repoPath = true →
          (getRemoteRepository w g remote seen).events
            = [Event.log "clone" (remote.URL.text ++ " -> " ++ loc.FullPath), Event.remoteVCS]
          ∧ (getRemoteRepository w g remote seen).err = none) := by
  refine ⟨if HasPrefix remote.URL.text (TrimSuffix repoURL.text ".git") then
      TrimSuffix (w.Join [loc.RootPath, repoURL.Host, repoURL.Path]) ".git" else loc.FullPath,
    ?_, ?_, ?_, ?_, ?_, ?_⟩
  · intro h
    rw [if_pos ((HasPrefix_iff _ _).2 h)]
  · intro h
    rw [if_neg (fun hp => h ((HasPrefix_iff _ _).1 hp))]
  · simp [freshRepoPath, hloc, hstat, hne, hnf, hr]
  · simp [getRemoteRepository, hloc, hstat, hne, hnf, hr, lockedClone_seen]
  · intro hs
    simp only [getRemoteRepository, hloc, hstat, hne, hnf, hr, if_true]
    simp [lockedClone_events_free _ _ _ _ _ _ hs, lockedClone_err_free _ _ _ _ _ _ hs]
  · intro hs
    simp only [getRemoteRepository, hloc, hstat, hne, hnf, hr, if_true]
    simp [lockedClone_events_claimed _ _ _ _ _ _ hs, lockedClone_err_claimed _ _ _ _ _ _ hs]

/-- The remote `example.com/group/repo/sub` is served from `example.com/group/repo.git`:
the trimmed fetch URL is a prefix of the original one and `Clone` gets the path
rebuilt from the fetch URL. -/
theorem discovered_backend_repoPath_witness :
    (getRemoteRepository (sampleWorld "/" ["/home/u/ghq"] statNothing (none, ""))
        defaultGetter
        ⟨⟨"https://example.com/group/repo/sub", "example.com", "/group/repo/sub"⟩, true,
          (some gitBackend, ⟨"https://example.com/group/repo.git", "example.com", "/group/repo.git"⟩)⟩
        Seen.empty).events
      = [Event.log "clone"
           "https://example.com/group/repo/sub -> /home/u/ghq/example.com/group/repo/sub",
         Event.remoteVCS,
         Event.clone "git" ⟨"https://example.com/group/repo.git", "example.com", "/group/repo.git"⟩
           "/home/u/ghq/example.com/group/repo" false false] := by
  obtain ⟨p, h1, _, _, _, h5, _⟩ := discovered_backend_repoPath
    (sampleWorld "/" ["/home/u/ghq"] statNothing (none, "")) defaultGetter
    ⟨⟨"https://example.com/group/repo/sub", "example.com", "/group/repo/sub"⟩, true,
      (some gitBackend, ⟨"https://example.com/group/repo.git", "example.com", "/group/repo.git"⟩)⟩
    Seen.empty
    ⟨"/home/u/ghq/example.com/group/repo/sub", "/home/u/ghq", (none, "")⟩
    ⟨"stat /home/u/ghq/example.com/group/repo/sub: no such file or directory", true⟩
    gitBackend ⟨"https://example.com/group/repo.git", "example.com", "/group/repo.git"⟩
    (by rfl) (by decide) (by rfl) (by rfl) (by rfl)
  have hp := h1 ⟨"/sub", by decide⟩
  rw [(h5 (by rfl)).1, hp]
  decide

/-! ## The registry across calls -/

/-- The registry after a call: the path of its `getRepoLock` call is claimed in
addition, and nothing else changes. -/
theorem run_seen (c : Call) (seen : Seen) :
    (c.run seen).seen = match lockPath c with
      | some p => seen.mark p
      | none => seen := by
  cases hl : lockPath c with
  | none => exact (run_of_lockPath_none c hl seen).1
  | some p =>
    unfold lockPath at hl
    split at hl
    · rename_i q hf
      simp only [Option.some.injEq] at hl
      subst hl
      obtain ⟨vcs, u, ev, -, hrun⟩ := run_of_freshRepoPath c q hf
      simp [hrun, lockedClone_seen]
    · obtain ⟨vcs, ev, -, hrun⟩ := run_of_updateRepoPath c p hl
      simp [hrun, lockedUpdate_seen]

theorem run_seen_mono (c : Call) (seen : Seen) (q : String) (h : seen q = true) :
    (c.run seen).seen q = true := by
  rw [run_seen]
  split
  · exact seen_mark_mono _ _ _ h
  · exact h

/-- The `Clone` events of one call at path `R`: none, or exactly one, and then `R`
was not claimed before and is claimed afterwards. -/
theorem run_countP_isCloneAt (c : Call) (seen : Seen) (R : String) :
    (c.run seen).events.countP (Event.isCloneAt R) = 0
    ∨ ((c.run seen).events.countP (Event.isCloneAt R) = 1 ∧ seen R = false
        ∧ (c.run seen).seen R = true) := by
  cases hf : freshRepoPath c with
  | some P =>
    obtain ⟨vcs, u, ev, hev, hrun⟩ := run_of_freshRepoPath c P hf
    rw [hrun]
    cases hs : seen P
    · by_cases hPR : P = R
      · subst hPR
        right
        simp [lockedClone_events_free _ _ _ _ _ _ hs, lockedClone_seen, seen_mark_self, hs,
          countP_isCloneAt_of_not_backendOp _ _ hev, Event.isCloneAt]
      · left
        simp [lockedClone_events_free _ _ _ _ _ _ hs,
          countP_isCloneAt_of_not_backendOp _ _ hev, Event.isCloneAt, hPR]
    · left
      simp [lockedClone_events_claimed _ _ _ _ _ _ hs, countP_isCloneAt_of_not_backendOp _ _ hev]
  | none =>
    left
    cases hu : updateRepoPath c with
    | some P =>
      obtain ⟨vcs, ev, hev, hrun⟩ := run_of_updateRepoPath c P hu
      rw [hrun]
      cases hs : seen P
      · simp [lockedUpdate_events_free _ _ _ _ _ hs,
          countP_isCloneAt_of_not_backendOp _ _ hev, Event.isCloneAt]
      · simp [lockedUpdate_events_claimed _ _ _ _ _ hs,
          countP_isCloneAt_of_not_backendOp _ _ hev]
    | none =>
      have hl : lockPath c = none := by simp [lockPath, hf, hu]
      exact countP_isCloneAt_of_not_backendOp _ _ (run_of_lockPath_none c hl seen).2

theorem allEvents_cons (seen : Seen) (c : Call) (cs : List Call) :
    allEvents seen (c :: cs) = (c.run seen).events ++ allEvents (c.run seen).seen cs := by
  simp [allEvents, runCalls, Call.run]

theorem seenAfter_cons (seen : Seen) (c : Call) (cs : List Call) :
    seenAfter seen (c :: cs) = seenAfter (c.run seen).seen cs := rfl

theorem seenAfter_mono (cs : List Call) :
    ∀ (seen : Seen) (q : String), seen q = true → seenAfter seen cs q = true := by
  induction cs with
  | nil => intro seen q h; exact h
  | cons c cs ih =>
    intro seen q h
    rw [seenAfter_cons]
    exact ih _ q (run_seen_mono c seen q h)

theorem seenAfter_of_not_locked (R : String) (cs : List Call) :
    ∀ (seen : Seen), seen R = false → (∀ c ∈ cs, lockPath c ≠ some R) →
      seenAfter seen cs R = false := by
  induction cs with
  | nil => intro seen h _; exact h
  | cons c cs ih =>
    intro seen h hcs
    rw [seenAfter_cons]
    refine ih _ ?_ (fun c' hc' => hcs c' (List.mem_cons_of_mem _ hc'))
    rw [run_seen]
    have hc := hcs c (List.mem_cons_self _ _)
    split
    · rename_i p hp
      have hne : R ≠ p := fun hRp => hc (by rw [hp, hRp])
      rw [seen_mark_of_ne _ hne]; exact h
    · exact h

theorem allEvents_countP_isCloneAt (R : String) (cs : List Call) :
    ∀ seen : Seen, (allEvents seen cs).countP (Event.isCloneAt R) ≤ 1
      ∧ (seen R = true → (allEvents seen cs).countP (Event.isCloneAt R) = 0) := by
  induction cs with
  | nil => intro seen; simp [allEvents, runCalls]
  | cons c cs ih =>
    intro seen
    rw [allEvents_cons, List.countP_append]
    obtain ⟨hle, hzero⟩ := ih (c.run seen).seen
    rcases run_countP_isCloneAt c seen R with h0 | ⟨h1, hs, hs'⟩
    · rw [h0]
      refine ⟨by omega, fun hR => ?_⟩
      rw [hzero (run_seen_mono c seen R hR)]
    · rw [h1, hzero hs']
      exact ⟨by omega, fun hR => by rw [hs] at hR; cases hR⟩

theorem seenAfter_of_locked (R : String) (cs : List Call) :
    ∀ (seen : Seen), (∃ c ∈ cs, lockPath c = some R) → seenAfter seen cs R = true := by
  induction cs with
  | nil => intro seen h; simp at h
  | cons c cs ih =>
    intro seen h
    rw [seenAfter_cons]
    obtain ⟨c', hc', hl⟩ := h
    rcases List.mem_cons.1 hc' with hcc | hcs
    · subst hcc
      apply seenAfter_mono
      rw [run_seen, hl]
      exact seen_mark_self _ _
    · exact ih _ ⟨c', hcs, hl⟩

/-- C2 as stated fails in its second part: the same call, for
`github.com/example/repo` with nothing on disk, made three times on a registry
that starts empty. Every one of the three reaches the fresh-path branch with the
final path `/home/u/ghq/github.com/example/repo`; the first invokes `Clone`, and
of the second and third, two calls that both reach the fresh-path branch with
the same final `repoPath`, neither invokes `Clone`. The same happens to two
fresh-path calls made after an update call whose detected path is that path. -/
theorem later_fresh_calls_both_skip :
    freshRepoPath ⟨sampleWorld "/" ["/home/u/ghq"] statNothing (none, ""), defaultGetter,
        exampleRemote⟩ = some "/home/u/ghq/github.com/example/repo"
    ∧ (runCalls Seen.empty
        [⟨sampleWorld "/" ["/home/u/ghq"] statNothing (none, ""), defaultGetter, exampleRemote⟩,
         ⟨sampleWorld "/" ["/home/u/ghq"] statNothing (none, ""), defaultGetter, exampleRemote⟩,
         ⟨sampleWorld "/" ["/home/u/ghq"] statNothing (none, ""), defaultGetter,
           exampleRemote⟩]).map
        (fun o => (o.err, o.events.countP Event.isClone))
      = [(none, 1), (none, 0), (none, 0)]
    ∧ (runCalls Seen.empty
        [⟨sampleWorld "/" ["/home/u/ghq"] statEverything
            (some gitBackend, "/home/u/ghq/github.com/example/repo"),
           ⟨true, false, false, false, ""⟩, exampleRemote⟩,
         ⟨sampleWorld "/" ["/home/u/ghq"] statNothing (none, ""), defaultGetter, exampleRemote⟩,
         ⟨sampleWorld "/" ["/home/u/ghq"] statNothing (none, ""), defaultGetter,
           exampleRemote⟩]).map
        (fun o => (o.err, o.events.countP Event.isClone))
      = [(none, 0), (none, 0), (none, 0)] := by
  decide

/-- C2, amended: in any sequence of `getRemoteRepository` calls run one after another
on a registry that starts empty, with any flags, remotes and collaborator
answers, `Clone` is invoked with local path `R` at most once in the whole
sequence. In particular, of two calls `c1` and `c2` that both reach the
fresh-path branch with final `repoPath` equal to `R`, `c1` made after the calls
`pre` and `c2` later (any calls `mid` between them): the later call `c2` returns
nil and invokes no backend operation; the earlier call `c1` invokes `Clone`
exactly once, at `R`, when no call of `pre` has reached `getRepoLock` with `R`,
and returns nil with no backend operation when some call of `pre` has. -/
theorem clone_at_most_once_per_path (calls : List Call) (R : String) :
    (allEvents Seen.empty calls).countP (Event.isCloneAt R) ≤ 1
    ∧ ∀ (pre mid : List Call) (c1 c2 : Call),
        freshRepoPath c1 = some R → freshRepoPath c2 = some R →
        ((c2.run (seenAfter (c1.run (seenAfter Seen.empty pre)).seen mid)).err = none
          ∧ (c2.run (seenAfter (c1.run (seenAfter Seen.empty pre)).seen mid)).events.countP
              Event.isBackendOp = 0)
        ∧ ((∀ c ∈ pre, lockPath c ≠ some R) →
            (c1.run (seenAfter Seen.empty pre)).events.countP (Event.isCloneAt R) = 1
            ∧ (c1.run (seenAfter Seen.empty pre)).events.countP Event.isClone = 1
            ∧ (c1.run (seenAfter Seen.empty pre)).events.countP Event.isBackendOp = 1)
        ∧ ((∃ c ∈ pre, lockPath c = some R) →
            (c1.run (seenAfter Seen.empty pre)).err = none
            ∧ (c1.run (seenAfter Seen.empty pre)).events.countP Event.isBackendOp = 0) := by
  refine ⟨(allEvents_countP_isCloneAt R calls Seen.empty).1, ?_⟩
  intro pre mid c1 c2 h1 h2
  obtain ⟨vcs1, u1, ev1, hev1, hrun1⟩ := run_of_freshRepoPath c1 R h1
  obtain ⟨vcs2, u2, ev2, hev2, hrun2⟩ := run_of_freshRepoPath c2 R h2
  have hs2 : seenAfter (c1.run (seenAfter Seen.empty pre)).seen mid R = true := by
    apply seenAfter_mono
    rw [hrun1, lockedClone_seen, seen_mark_self]
  refine ⟨⟨?_, ?_⟩, fun hpre => ?_, fun hpre => ?_⟩
  · rw [hrun2, lockedClone_err_claimed _ _ _ _ _ _ hs2]
  · rw [hrun2, lockedClone_events_claimed _ _ _ _ _ _ hs2]
    exact countP_isBackendOp_of_not_backendOp _ hev2
  · have hs1 : seenAfter Seen.empty pre R = false :=
      seenAfter_of_not_locked R pre Seen.empty rfl hpre
    rw [hrun1]
    simp [lockedClone_events_free _ _ _ _ _ _ hs1, countP_isCloneAt_of_not_backendOp _ _ hev1,
      countP_isClone_of_not_backendOp _ hev1, countP_isBackendOp_of_not_backendOp _ hev1,
      Event.isCloneAt, Event.isClone, Event.isBackendOp]
  · have hs1 : seenAfter Seen.empty pre R = true := seenAfter_of_locked R pre Seen.empty hpre
    rw [hrun1, lockedClone_err_claimed _ _ _ _ _ _ hs1,
      lockedClone_events_claimed _ _ _ _ _ _ hs1]
    exact ⟨rfl, countP_isBackendOp_of_not_backendOp _ hev1⟩

/-- A call for another repository, then a call for `github.com/example/repo`, then an
update call elsewhere, then a call for `github.com/example/repo.git` with `git`
forced: over the four calls `Clone` runs at most once at the shared path, the
second call invokes `Clone` once and the fourth invokes no backend operation. -/
theorem clone_at_most_once_per_path_witness :
    (allEvents Seen.empty
        [⟨sampleWorld "/" ["/home/u/ghq"] statNothing (none, ""), defaultGetter,
           ⟨⟨"https://github.com/example/other", "github.com", "/example/other"⟩, true,
             (some gitBackend,
               ⟨"https://github.com/example/other", "github.com", "/example/other"⟩)⟩⟩,
         ⟨sampleWorld "/" ["/home/u/ghq"] statNothing (none, ""), defaultGetter, exampleRemote⟩,
         ⟨sampleWorld "/" ["/home/u/ghq"] statEverything (some gitBackend, "/home/u/ghq/x"),
           ⟨true, false, false, false, ""⟩, exampleRemote⟩,
         ⟨sampleWorld "/" ["/home/u/ghq"] statNothing (none, ""),
           ⟨false, false, false, false, "git"⟩,
           ⟨⟨"https://github.com/example/repo.git", "github.com", "/example/repo.git"⟩, true,
             (none, exampleURL)⟩⟩]).countP
        (Event.isCloneAt "/home/u/ghq/github.com/example/repo") ≤ 1
    ∧ (Call.run ⟨sampleWorld "/" ["/home/u/ghq"] statNothing (none, ""), defaultGetter,
          exampleRemote⟩
        (seenAfter Seen.empty
          [⟨sampleWorld "/" ["/home/u/ghq"] statNothing (none, ""), defaultGetter,
             ⟨⟨"https://github.com/example/other", "github.com", "/example/other"⟩, true,
               (some gitBackend,
                 ⟨"https://github.com/example/other", "github.com",
                   "/example/other"⟩)⟩⟩])).events.countP Event.isClone = 1
    ∧ (Call.run ⟨sampleWorld "/" ["/home/u/ghq"] statNothing (none, ""),
          ⟨false, false, false, false, "git"⟩,
          ⟨⟨"https://github.com/example/repo.git", "github.com", "/example/repo.git"⟩, true,
            (none, exampleURL)⟩⟩
        (seenAfter
          (Call.run ⟨sampleWorld "/" ["/home/u/ghq"] statNothing (none, ""), defaultGetter,
              exampleRemote⟩
            (seenAfter Seen.empty
              [⟨sampleWorld "/" ["/home/u/ghq"] statNothing (none, ""), defaultGetter,
                 ⟨⟨"https://github.com/example/other", "github.com", "/example/other"⟩, true,
                   (some gitBackend,
                     ⟨"https://github.com/example/other", "github.com",
                       "/example/other"⟩)⟩⟩])).seen
          [⟨sampleWorld "/" ["/home/u/ghq"] statEverything (some gitBackend, "/home/u/ghq/x"),
             ⟨true, false, false, false, ""⟩, exampleRemote⟩])).events.countP
        Event.isBackendOp = 0 :=
  have h := clone_at_most_once_per_path
    [⟨sampleWorld "/" ["/home/u/ghq"] statNothing (none, ""), defaultGetter,
       ⟨⟨"https://github.com/example/other", "github.com", "/example/other"⟩, true,
         (some gitBackend,
           ⟨"https://github.com/example/other", "github.com", "/example/other"⟩)⟩⟩,
     ⟨sampleWorld "/" ["/home/u/ghq"] statNothing (none, ""), defaultGetter, exampleRemote⟩,
     ⟨sampleWorld "/" ["/home/u/ghq"] statEverything (some gitBackend, "/home/u/ghq/x"),
       ⟨true, false, false, false, ""⟩, exampleRemote⟩,
     ⟨sampleWorld "/" ["/home/u/ghq"] statNothing (none, ""),
       ⟨false, false, false, false, "git"⟩,
       ⟨⟨"https://github.com/example/repo.git", "github.com", "/example/repo.git"⟩, true,
         (none, exampleURL)⟩⟩]
    "/home/u/ghq/github.com/example/repo"
  have h2 := h.2
    [⟨sampleWorld "/" ["/home/u/ghq"] statNothing (none, ""), defaultGetter,
       ⟨⟨"https://github.com/example/other", "github.com", "/example/other"⟩, true,
         (some gitBackend,
           ⟨"https://github.com/example/other", "github.com", "/example/other"⟩)⟩⟩]
    [⟨sampleWorld "/" ["/home/u/ghq"] statEverything (some gitBackend, "/home/u/ghq/x"),
       ⟨true, false, false, false, ""⟩, exampleRemote⟩]
    ⟨sampleWorld "/" ["/home/u/ghq"] statNothing (none, ""), defaultGetter, exampleRemote⟩
    ⟨sampleWorld "/" ["/home/u/ghq"] statNothing (none, ""),
        ⟨false, false, false, false, "git"⟩,
        ⟨⟨"https://github.com/example/repo.git", "github.com", "/example/repo.git"⟩, true,
          (none, exampleURL)⟩⟩
    (by decide) (by decide)
  ⟨h.1,
   (h2.2.1 (by
      intro c hc
      rw [List.mem_singleton] at hc
      subst hc
      decide)).2.1,
   h2.1.2⟩

/-- C10: a `getRemoteRepository` call leaves every claimed registry entry claimed
and adds at most one entry, the `repoPath` with which it reaches `getRepoLock`.
It leaves the registry exactly as it was when it makes no `getRepoLock` call,
which is the case when it returns a stat error, the "Could not find version
control system" error (no forced and no reported backend), the "failed to detect
VCS" error, or on the existing-path no-op without update. Hence after a call
that failed to find a backend, a later call that reaches the fresh-path branch
with a final `repoPath` that was not claimed before still invokes `Clone` there. -/
theorem registry_gains_only_lock_path (w : World) (g : getter) (remote : RemoteRepository)
    (seen : Seen) :
    (∀ q, seen q = true → (getRemoteRepository w g remote seen).seen q = true)
    ∧ (∀ q, (getRemoteRepository w g remote seen).seen q = true →
        seen q = true ∨ lockPath ⟨w, g, remote⟩ = some q)
    ∧ (lockPath ⟨w, g, remote⟩ = none → (getRemoteRepository w g remote seen).seen = seen)
    ∧ (∀ loc, w.LocalRepositoryFromURL remote.URL = .ok loc →
        ((∃ e, w.Stat loc.FullPath = some e ∧ e.IsNotExist = false)
          ∨ (∃ e, w.Stat loc.FullPath = some e ∧ e.IsNotExist = true
                ∧ w.vcsRegistry g.vcs = none ∧ remote.VCS.1 = none)
          ∨ (w.Stat loc.FullPath = none ∧ g.update = true ∧ loc.VCS.1 = none)
          ∨ (w.Stat loc.FullPath = none ∧ g.update = false)) →
        lockPath ⟨w, g, remote⟩ = none ∧ (getRemoteRepository w g remote seen).seen = seen)
    ∧ (∀ loc e, w.LocalRepositoryFromURL remote.URL = .ok loc →
        w.Stat loc.FullPath = some e → e.IsNotExist = true →
        w.vcsRegistry g.vcs = none → remote.VCS.1 = none →
        ∀ (c : Call) (R : String), freshRepoPath c = some R → seen R = false →
          (c.run (getRemoteRepository w g remote seen).seen).events.countP
            (Event.isCloneAt R) = 1) := by
  have hrun : getRemoteRepository w g remote seen = Call.run ⟨w, g, remote⟩ seen := rfl
  have hcases : ∀ loc, w.LocalRepositoryFromURL remote.URL = .ok loc →
        ((∃ e, w.Stat loc.FullPath = some e ∧ e.IsNotExist = false)
          ∨ (∃ e, w.Stat loc.FullPath = some e ∧ e.IsNotExist = true
                ∧ w.vcsRegistry g.vcs = none ∧ remote.VCS.1 = none)
          ∨ (w.Stat loc.FullPath = none ∧ g.update = true ∧ loc.VCS.1 = none)
          ∨ (w.Stat loc.FullPath = none ∧ g.update = false)) →
        lockPath ⟨w, g, remote⟩ = none := by
    intro loc hloc h
    rcases h with ⟨e, hs, hne⟩ | ⟨e, hs, hne, hv, hr⟩ | ⟨hs, hu, hr⟩ | ⟨hs, hu⟩
    · simp [lockPath, freshRepoPath, updateRepoPath, hloc, hs, hne]
    · rcases hr' : remote.VCS with ⟨ov, u⟩
      rw [hr'] at hr
      simp at hr
      subst hr
      simp [lockPath, freshRepoPath, updateRepoPath, hloc, hs, hne, hv, hr']
    · rcases hr' : loc.VCS with ⟨ov, p⟩
      rw [hr'] at hr
      simp at hr
      subst hr
      simp [lockPath, freshRepoPath, updateRepoPath, hloc, hs, hu, hr']
    · simp [lockPath, freshRepoPath, updateRepoPath, hloc, hs, hu]
  refine ⟨fun q hq => ?_, fun q hq => ?_, fun hl => ?_, fun loc hloc h => ?_, ?_⟩
  · rw [hrun]; exact run_seen_mono _ _ _ hq
  · rw [hrun, run_seen] at hq
    split at hq
    · rename_i p hp
      by_cases hqp : q = p
      · right; rw [hp, hqp]
      · left; rwa [seen_mark_of_ne _ hqp] at hq
    · left; exact hq
  · rw [hrun]; exact (run_of_lockPath_none _ hl seen).1
  · have hl := hcases loc hloc h
    refine ⟨hl, ?_⟩
    rw [hrun]; exact (run_of_lockPath_none _ hl seen).1
  · intro loc e hloc hs hne hv hr c R hc hfree
    have hl := hcases loc hloc (Or.inr (Or.inl ⟨e, hs, hne, hv, hr⟩))
    have hsame : (getRemoteRepository w g remote seen).seen = seen := by
      rw [hrun]; exact (run_of_lockPath_none _ hl seen).1
    rw [hsame]
    obtain ⟨vcs, u, ev, hev, hrun2⟩ := run_of_freshRepoPath c R hc
    rw [hrun2]
    simp [lockedClone_events_free _ _ _ _ _ _ hfree, countP_isCloneAt_of_not_backendOp _ _ hev,
      Event.isCloneAt]

/-- A call that finds no backend leaves the empty registry empty, and the next call
for the same path still invokes `Clone` there. -/
theorem registry_gains_only_lock_path_witness :
    (getRemoteRepository (sampleWorld "/" ["/home/u/ghq"] statNothing (none, "")) defaultGetter
        ⟨exampleURL, true, (none, exampleURL)⟩ Seen.empty).seen = Seen.empty
    ∧ (Call.run ⟨sampleWorld "/" ["/home/u/ghq"] statNothing (none, ""), defaultGetter,
          exampleRemote⟩
        (getRemoteRepository (sampleWorld "/" ["/home/u/ghq"] statNothing (none, ""))
          defaultGetter ⟨exampleURL, true, (none, exampleURL)⟩ Seen.empty).seen).events.countP
        (Event.isCloneAt "/home/u/ghq/github.com/example/repo") = 1 :=
  have h := registry_gains_only_lock_path
    (sampleWorld "/" ["/home/u/ghq"] statNothing (none, "")) defaultGetter
    ⟨exampleURL, true, (none, exampleURL)⟩ Seen.empty
  ⟨(h.2.2.2.1 ⟨"/home/u/ghq/github.com/example/repo", "/home/u/ghq", (none, "")⟩ (by rfl)
      (Or.inr (Or.inl
        ⟨⟨"stat /home/u/ghq/github.com/example/repo: no such file or directory", true⟩,
          by decide, by rfl, by rfl, by rfl⟩))).2,
   h.2.2.2.2 ⟨"/home/u/ghq/github.com/example/repo", "/home/u/ghq", (none, "")⟩
      ⟨"stat /home/u/ghq/github.com/example/repo: no such file or directory", true⟩
      (by rfl) (by decide) (by rfl) (by rfl) (by rfl)
      ⟨sampleWorld "/" ["/home/u/ghq"] statNothing (none, ""), defaultGetter, exampleRemote⟩
      "/home/u/ghq/github.com/example/repo" (by decide) (by rfl)⟩

/-! ## The relative-path step of `get` -/

theorem len_append (a b : String) : len (a ++ b) = len a + len b := by
  simp [len, String.utf8ByteSize, String.append]
  
theorem TrimPrefix_append (pre t : String) : TrimPrefix (pre ++ t) pre = t := by
  have h : HasPrefix (pre ++ t) pre = true := (HasPrefix_iff _ _).2 ⟨t, rfl⟩
  simp [TrimPrefix, h]

theorem TrimPrefix_of_not_HasPrefix (s pre : String) (h : HasPrefix s pre = false) :
    TrimPrefix s pre = s := by
  simp [TrimPrefix, h]

/-- The test `p != path` of line 48 holds exactly when `r + separator` is a prefix. -/
theorem trimmed_ne_iff (path r : String) (sep : Char) :
    (TrimPrefix path (r ++ String.singleton sep) != path)
      = HasPrefix path (r ++ String.singleton sep) := by
  cases h : HasPrefix path (r ++ String.singleton sep)
  · simp [TrimPrefix_of_not_HasPrefix _ _ h]
  · obtain ⟨t, ht⟩ := (HasPrefix_iff _ _).1 h
    rw [ht, TrimPrefix_append]
    simp only [bne_iff_ne, ne_eq]
    intro heq
    have := congrArg String.length heq
    simp at this

/-- The body of the loop of lines 46-51, after the test `p != path` is replaced by
the prefix test. -/
theorem guess_step (sep : Char) (path st r : String) :
    (let p := TrimPrefix path (r ++ String.singleton sep)
     if (p != path && (st == "" || decide (len p < len st))) = true then p else st)
    = if HasPrefix path (r ++ String.singleton sep) = true
          ∧ (st = "" ∨ len (TrimPrefix path (r ++ String.singleton sep)) < len st)
      then TrimPrefix path (r ++ String.singleton sep) else st := by
  simp only [trimmed_ne_iff]
  by_cases h1 : HasPrefix path (r ++ String.singleton sep) = true <;>
  by_cases h2 : st = "" <;>
  by_cases h3 : len (TrimPrefix path (r ++ String.singleton sep)) < len st <;>
  simp [h1, h2, h3]

theorem trimmed_ne_empty (sep : Char) (path r : String)
    (hne : path ≠ r ++ String.singleton sep)
    (hp : HasPrefix path (r ++ String.singleton sep) = true) :
    TrimPrefix path (r ++ String.singleton sep) ≠ "" := by
  obtain ⟨t, ht⟩ := (HasPrefix_iff _ _).1 hp
  intro h
  rw [ht, TrimPrefix_append] at h
  apply hne
  rw [ht, h]
  simp

theorem guess_foldl_inv (sep : Char) (path : String) (rs : List String) :
    ∀ (st : String) (done : List String),
      (∀ r ∈ rs, path ≠ r ++ String.singleton sep) →
      GuessInv sep path st done →
      GuessInv sep path
        (rs.foldl
          (fun repoPath r =>
            let p := TrimPrefix path (r ++ String.singleton sep)
            if p != path && (repoPath == "" || decide (len p < len repoPath)) then p
            else repoPath)
          st)
        (done ++ rs) := by
  induction rs with
  | nil => intro st done _ h; simpa using h
  | cons r rs ih =>
    intro st done hne hinv
    rw [List.foldl_cons]
    have hstep := guess_step sep path st r
    simp only at hstep
    rw [hstep]
    have hdone : done ++ r :: rs = (done ++ [r]) ++ rs := by simp
    rw [hdone]
    refine ih _ _ (fun r' hr' => hne r' (List.mem_cons_of_mem _ hr')) ?_
    have hner := hne r (List.mem_cons_self _ _)
    cases hp : HasPrefix path (r ++ String.singleton sep)
    · -- the root does not match: the state is kept
      simp only [Bool.false_eq_true, false_and, if_false]
      rcases hinv with ⟨hst, hall⟩ | ⟨hst, r0, hr0, hp0, heq, hmin⟩
      · left
        refine ⟨hst, fun r' hr' => ?_⟩
        rcases List.mem_append.1 hr' with h | h
        · exact hall r' h
        · simp at h; subst h; exact hp
      · right
        refine ⟨hst, r0, List.mem_append_left _ hr0, hp0, heq, fun r' hr' hp' => ?_⟩
        rcases List.mem_append.1 hr' with h | h
        · exact hmin r' h hp'
        · simp at h; subst h; rw [hp] at hp'; cases hp'
    · have hpne := trimmed_ne_empty sep path r hner hp
      simp only [true_and]
      rcases hinv with ⟨hst, hall⟩ | ⟨hst, r0, hr0, hp0, heq, hmin⟩
      · -- first match
        rw [if_pos (Or.inl hst)]
        right
        refine ⟨hpne, r, by simp, hp, rfl, fun r' hr' hp' => ?_⟩
        rcases List.mem_append.1 hr' with h | h
        · rw [hall r' h] at hp'; cases hp'
        · simp at h; subst h; exact Nat.le_refl _
      · by_cases hlt : len (TrimPrefix path (r ++ String.singleton sep)) < len st
        · rw [if_pos (Or.inr hlt)]
          right
          refine ⟨hpne, r, by simp, hp, rfl, fun r' hr' hp' => ?_⟩
          rcases List.mem_append.1 hr' with h | h
          · exact Nat.le_trans (Nat.le_of_lt hlt) (hmin r' h hp')
          · simp at h; subst h; exact Nat.le_refl _
        · rw [if_neg (by rintro (h | h); exact hst h; exact hlt h)]
          right
          refine ⟨hst, r0, List.mem_append_left _ hr0, hp0, heq, fun r' hr' hp' => ?_⟩
          rcases List.mem_append.1 hr' with h | h
          · exact hmin r' h hp'
          · simp at h; subst h; exact Nat.le_of_not_lt hlt

theorem guessRepoPath_inv (sep : Char) (path : String) (roots : List String)
    (hne : ∀ r ∈ roots, path ≠ r ++ String.singleton sep) :
    GuessInv sep path (guessRepoPath sep path roots) roots := by
  have h := guess_foldl_inv sep path roots "" [] hne (Or.inl ⟨rfl, by simp⟩)
  simpa [guessRepoPath] using h

theorem guess_foldl_empty (sep : Char) (path : String) (rs : List String)
    (hall : ∀ r ∈ rs, HasPrefix path (r ++ String.singleton sep) = true →
      TrimPrefix path (r ++ String.singleton sep) = "") :
    rs.foldl
      (fun repoPath r =>
        let p := TrimPrefix path (r ++ String.singleton sep)
        if p != path && (repoPath == "" || decide (len p < len repoPath)) then p
        else repoPath)
      "" = "" := by
  induction rs with
  | nil => rfl
  | cons r rs ih =>
    rw [List.foldl_cons]
    have hstep := guess_step sep path "" r
    simp only at hstep
    rw [hstep]
    have hr := hall r (List.mem_cons_self _ _)
    have hrest := ih (fun r' hr' => hall r' (List.mem_cons_of_mem _ hr'))
    cases hp : HasPrefix path (r ++ String.singleton sep)
    · simpa using hrest
    · rw [if_pos (by simp), hr hp]
      exact hrest


theorem relativeArgURL_eq (w : World) (argURL wd : String) (roots : List String)
    (hrel : (Split argURL w.Separator).head? = some "."
      ∨ (Split argURL w.Separator).head? = some "..")
    (hwd : w.Getwd = .ok wd) (hroots : w.localRepositoryRoots = .ok roots) :
    relativeArgURL w argURL =
      if guessRepoPath w.Separator
          (w.Clean (w.Join [wd, w.Join (Split argURL w.Separator)])) roots ≠ "" then
        .ok ("https://" ++ guessRepoPath w.Separator
              (w.Clean (w.Join [wd, w.Join (Split argURL w.Separator)])) roots,
             [Event.log "resolved"
               ("relative " ++ w.Quote argURL ++ " to " ++ w.Quote ("https://" ++
                 guessRepoPath w.Separator
                   (w.Clean (w.Join [wd, w.Join (Split argURL w.Separator)])) roots))])
      else .ok (argURL, []) := by
  unfold relativeArgURL
  simp only [if_pos hrel, hwd, hroots]
  by_cases h : guessRepoPath w.Separator
      (w.Clean (w.Join [wd, w.Join (Split argURL w.Separator)])) roots = ""
  · simp [h]
  · simp [h]

/-- C5 as stated fails: working directory `/a`, argument `..`, roots `[""]`. The
cleaned path is `/`, the root `""` followed by the separator is a prefix of it
and leaves the empty suffix, and the argument handed to the parser is `..`,
unchanged, not `https://` followed by that suffix. -/
theorem empty_suffix_is_not_guessed :
    (sampleWorld "/a" [""] statNothing (none, "")).Clean
        ((sampleWorld "/a" [""] statNothing (none, "")).Join
          ["/a", (sampleWorld "/a" [""] statNothing (none, "")).Join (Split ".." '/')]) = "/"
    ∧ HasPrefix "/" ("" ++ String.singleton '/') = true
    ∧ TrimPrefix "/" ("" ++ String.singleton '/') = ""
    ∧ relativeArgURL (sampleWorld "/a" [""] statNothing (none, "")) ".." = .ok ("..", [])
    ∧ relativeArgURL (sampleWorld "/a" [""] statNothing (none, "")) ".." ≠ .ok ("https://", [])
    ∧ relativeArgURL (sampleWorld "/a" [""] statNothing (none, "")) ".."
        ≠ .ok ("https://", [Event.log "resolved" "relative \x22..\x22 to \x22https://\x22"]) := by
  have h : relativeArgURL (sampleWorld "/a" [""] statNothing (none, "")) ".." = .ok ("..", []) := by
    rfl
  refine ⟨by decide, by decide, by decide, h, ?_, ?_⟩
  · rw [h]; simp
  · rw [h]; simp

/-- C5, amended: in the relative-path step of `get` (the first component of the
argument is `.` or `..`, the working directory and the roots are available),
with `path` the cleaned absolute path. When no root followed by the separator
is the whole path and at least one root followed by the separator is a prefix
of the path, the argument handed to the URL parser is `https://` followed by the
suffix left by one of the matching roots, and no matching root leaves a shorter
suffix (equivalently, no matching root is longer). When every root that matches
leaves the empty suffix, and in particular when no root matches, the argument is
handed to the parser unchanged. -/
theorem relative_argument_guess (w : World) (argURL wd path : String) (roots : List String)
    (hrel : (Split argURL w.Separator).head? = some "."
      ∨ (Split argURL w.Separator).head? = some "..")
    (hwd : w.Getwd = .ok wd) (hroots : w.localRepositoryRoots = .ok roots)
    (hpath : path = w.Clean (w.Join [wd, w.Join (Split argURL w.Separator)])) :
    ((∀ r ∈ roots, path ≠ r ++ String.singleton w.Separator) →
      (∃ r ∈ roots, ∃ t : String, path = r ++ String.singleton w.Separator ++ t) →
      ∃ r ∈ roots, ∃ suffix : String,
        path = r ++ String.singleton w.Separator ++ suffix
        ∧ relativeArgURL w argURL
            = .ok ("https://" ++ suffix,
                [Event.log "resolved"
                  ("relative " ++ w.Quote argURL ++ " to " ++ w.Quote ("https://" ++ suffix))])
        ∧ ∀ r' ∈ roots, ∀ s' : String, path = r' ++ String.singleton w.Separator ++ s' →
            len suffix ≤ len s' ∧ len r' ≤ len r)
    ∧ ((∀ r ∈ roots, ∀ t : String, path = r ++ String.singleton w.Separator ++ t → t = "") →
        relativeArgURL w argURL = .ok (argURL, [])) := by
  rw [relativeArgURL_eq w argURL wd roots hrel hwd hroots, ← hpath]
  constructor
  · intro hne hex
    rcases guessRepoPath_inv w.Separator path roots hne with ⟨_, hall⟩ | ⟨hst, r, hr, hp, heq, hmin⟩
    · obtain ⟨r, hr, t, ht⟩ := hex
      have := hall r hr
      rw [(HasPrefix_iff _ _).2 ⟨t, ht⟩] at this
      cases this
    · obtain ⟨t, ht⟩ := (HasPrefix_iff _ _).1 hp
      have hsuf : guessRepoPath w.Separator path roots = t := by
        rw [heq]; conv_lhs => rw [ht]
        exact TrimPrefix_append _ _
      refine ⟨r, hr, t, ht, ?_, ?_⟩
      · rw [if_pos hst, hsuf]
      · intro r' hr' s' hs'
        have hp' : HasPrefix path (r' ++ String.singleton w.Separator) = true :=
          (HasPrefix_iff _ _).2 ⟨s', hs'⟩
        have hle := hmin r' hr' hp'
        have htrim : TrimPrefix path (r' ++ String.singleton w.Separator) = s' := by
          conv_lhs => rw [hs']
          exact TrimPrefix_append _ _
        rw [hsuf, htrim] at hle
        refine ⟨hle, ?_⟩
        have h1 := congrArg len ht
        have h2 := congrArg len hs'
        rw [len_append, len_append] at h1 h2
        omega
  · intro hall
    have hempty : guessRepoPath w.Separator path roots = "" := by
      unfold guessRepoPath
      apply guess_foldl_empty
      intro r hr hp
      obtain ⟨t, ht⟩ := (HasPrefix_iff _ _).1 hp
      have := hall r hr t ht
      subst this
      conv_lhs => rw [ht]
      exact TrimPrefix_append _ _
    simp [hempty]

/-- Roots `/a` and `/a/b`, working directory `/a/b/c`, argument `./d`: the parser is
handed `https://c/d`, the suffix left by the longer root `/a/b`. -/
theorem relative_argument_guess_witness :
    relativeArgURL (sampleWorld "/a/b/c" ["/a", "/a/b"] statNothing (none, "")) "./d"
      = .ok ("https://c/d", [Event.log "resolved" "relative \x22./d\x22 to \x22https://c/d\x22"])
    ∧ ∃ r ∈ ["/a", "/a/b"], ∃ suffix : String,
        "/a/b/c/d" = r ++ String.singleton '/' ++ suffix
        ∧ relativeArgURL (sampleWorld "/a/b/c" ["/a", "/a/b"] statNothing (none, "")) "./d"
            = .ok ("https://" ++ suffix,
                [Event.log "resolved"
                  ("relative " ++ dquote ++ "./d" ++ dquote ++ " to " ++
                    (dquote ++ ("https://" ++ suffix) ++ dquote))])
        ∧ ∀ r' ∈ ["/a", "/a/b"], ∀ s' : String, "/a/b/c/d" = r' ++ String.singleton '/' ++ s' →
            len suffix ≤ len s' ∧ len r' ≤ len r :=
  ⟨by rfl,
   (relative_argument_guess (sampleWorld "/a/b/c" ["/a", "/a/b"] statNothing (none, ""))
      "./d" "/a/b/c" "/a/b/c/d" ["/a", "/a/b"] (by decide) (by rfl) (by rfl) (by decide)).1
      (by decide) ⟨"/a", by decide, "b/c/d", by decide⟩⟩

end Ghq
